import Mathlib

/-!
Shallow embedding of the hyper-data sync service:

* `src/unnamed/part_000` (lib/hyperliquid.js): the Hyperliquid REST client —
  `getMeta` (universe listing) and `getCandleSnapshot` (candle fetch), with
  their HTTP-status failure semantics.
* `src/lib/db.js`: the persistence helpers — `upsertCandles` (candle table
  with `ON CONFLICT (symbol, interval, ts_ms) DO UPDATE`) and the
  `sync_state` key/value table (`getSyncState` / `setSyncState`).
* `src/api/sync.js`: the sync engine — cursor read, slice selection, cursor
  persist, fetch loop with rate-limit retry, normalization, batch upsert.

JavaScript dynamic values are modelled by the inductive type `JVal`; the
`Number(_)` coercion on strings is abstracted by an explicit environment
function `strNum : String → Option ℚ` (`none` standing for `NaN`).  Effects
(database reads/writes, HTTP calls, sleeps) are modelled by an explicit
event trace so that ordering claims can be stated.
-/

namespace HyperData

/-- A JavaScript value as it appears in API response fields: `null`,
`undefined` (also the value of a missing property), `NaN`, a boolean, a
(non-NaN) number modelled as a rational, or a string. -/
inductive JVal where
  | null
  | undefined
  | nan
  | bool (b : Bool)
  | num (q : ℚ)
  | str (s : String)
deriving DecidableEq, Repr

/-- JavaScript `v == null` (loose equality): true exactly for `null` and
`undefined`. -/
def nullish : JVal → Bool
  | .null => true
  | .undefined => true
  | _ => false

/-- JavaScript truthiness: `null`, `undefined`, `NaN`, `false`, `0` and the
empty string are falsy, everything else truthy. -/
def truthy : JVal → Bool
  | .null => false
  | .undefined => false
  | .nan => false
  | .bool b => b
  | .num q => q != 0
  | .str s => s != ""

/-- JavaScript `Number(v)`; `none` stands for `NaN`.  `strNum` gives the
numeric reading of a string (`Number("1.5") = 1.5`, `Number("") = 0`,
`Number("abc") = NaN`); it is supplied by the environment. -/
def jsToNumber (strNum : String → Option ℚ) : JVal → Option ℚ
  | .null => some 0
  | .undefined => none
  | .nan => none
  | .bool b => some (if b then 1 else 0)
  | .num q => some q
  | .str s => strNum s

/-- JavaScript `Number(v) || 0`: the numeric coercion with `0` substituted
when the coercion yields `NaN` (and `0` mapped to `0`, which is the identity). -/
def numOr0 (strNum : String → Option ℚ) (v : JVal) : ℚ :=
  (jsToNumber strNum v).getD 0

/-- `fetch` response success flag: `res.ok` is true exactly for HTTP status
200–299. -/
def respOk (status : Nat) : Bool :=
  200 ≤ status && status ≤ 299

/-- One entry of the `meta` universe array, as classified by
`typeof u === 'string' ? u : u?.name` in `getMeta`:
a string; a non-string object, of which only the value of its `name`
property matters (`JVal.undefined` when the property is absent); or a non-string
non-object primitive, for which `u?.name` is `undefined`. -/
inductive UniverseEntry where
  | str (s : String)
  | obj (name : JVal)
  | prim (v : JVal)
deriving DecidableEq, Repr

/-- The JSON body of a `meta` response, as far as
`Array.isArray(data) ? data : data?.universe ?? []` distinguishes it:
a bare array, an object with a `universe` array field, or anything else
(for which the extracted list is empty). -/
inductive MetaBody where
  | arr (entries : List UniverseEntry)
  | objWithUniverse (entries : List UniverseEntry)
  | other
deriving DecidableEq, Repr

/-- `Array.isArray(data) ? data : data?.universe ?? []`. -/
def universeOf : MetaBody → List UniverseEntry
  | .arr es => es
  | .objWithUniverse es => es
  | .other => []

/-- The map step `(u) => (typeof u === 'string' ? u : u?.name)` of `getMeta`. -/
def entryName : UniverseEntry → JVal
  | .str s => .str s
  | .obj name => name
  | .prim _ => .undefined

/-- `getMeta` (src/unnamed/part_000, lines 28–39): on a non-success status it
throws `Hyperliquid meta failed: <status>` — with no special case for 429 —
otherwise it extracts the universe list and keeps the truthy mapped entries:
`universe.map((u) => (typeof u === 'string' ? u : u?.name)).filter(Boolean)`. -/
def getMeta (status : Nat) (body : MetaBody) : Except String (List JVal) :=
  if !respOk status then
    .error ("Hyperliquid meta failed: " ++ Nat.repr status)
  else
    .ok (((universeOf body).map entryName).filter truthy)

/-- A raw candle object returned by the snapshot endpoint.  Every field is a
`JVal`; an absent property reads as `JVal.undefined`. -/
structure RawCandle where
  T : JVal := .undefined
  t : JVal := .undefined
  o : JVal := .undefined
  h : JVal := .undefined
  l : JVal := .undefined
  c : JVal := .undefined
  v : JVal := .undefined
deriving DecidableEq, Repr

/-- The JSON body of a `candleSnapshot` response as far as
`Array.isArray(data) ? data : []` distinguishes it. -/
inductive CandleBody where
  | arr (cs : List RawCandle)
  | nonArr
deriving DecidableEq, Repr

/-- `Array.isArray(data) ? data : []`. -/
def candlesOf : CandleBody → List RawCandle
  | .arr cs => cs
  | .nonArr => []

/-- `getCandleSnapshot` (src/unnamed/part_000, lines 49–65): HTTP 429 throws
`RATE_LIMIT`; any other non-success status throws
`Hyperliquid candles failed: <status>`; success returns the array body. -/
def getCandleSnapshot (status : Nat) (body : CandleBody) :
    Except String (List RawCandle) :=
  if !respOk status then
    if status = 429 then .error "RATE_LIMIT"
    else .error ("Hyperliquid candles failed: " ++ Nat.repr status)
  else
    .ok (candlesOf body)

/-- One row of the `candles` table (src/lib/db.js): primary key
`(symbol, interval, ts_ms)`, value columns open/high/low/close/volume
(named `o h l c v` here; `open` is reserved in Lean).  `ts_ms` is the raw
JavaScript value the engine pushes (`ts_ms: t`). -/
structure Row where
  symbol : String
  interval : String
  ts_ms : JVal
  o : ℚ
  h : ℚ
  l : ℚ
  c : ℚ
  v : ℚ
deriving DecidableEq, Repr

/-- The primary key `(symbol, interval, ts_ms)` of a candle row. -/
def Row.key (r : Row) : String × String × JVal :=
  (r.symbol, r.interval, r.ts_ms)

/-- Effect of inserting one row with
`ON CONFLICT (symbol, interval, ts_ms) DO UPDATE SET <value columns> = EXCLUDED.<...>`
on the `candles` table (modelled as the list of its rows): if a row with the
same key exists it is overwritten in place, otherwise the new row is
appended. -/
def upsertRow (store : List Row) (r : Row) : List Row :=
  if store.any (fun s => s.key = r.key) then
    store.map (fun s => if s.key = r.key then r else s)
  else
    store ++ [r]

/-- `upsertCandles` (src/lib/db.js, lines 98–124): the rows are written in
order, each with the `ON CONFLICT ... DO UPDATE` clause.  The internal
chunking into batches of 100 does not change the row-at-a-time upsert
effect on the table, so the table evolves by folding `upsertRow`. -/
def upsertCandles (store : List Row) (rows : List Row) : List Row :=
  rows.foldl upsertRow store

/-- A `candles` table is well-formed when its primary key is unique: no two
rows share `(symbol, interval, ts_ms)`. -/
def KeyUnique (store : List Row) : Prop :=
  store.Pairwise (fun a b => a.key ≠ b.key)

/-! ### Decimal strings

`setSyncState` stores `String(value)` and the engine reads the cursor back
with `parseInt(value, 10) || 0`.  `jsStringOfNat` models `String(n)` for a
nonnegative integer (its decimal digits, no sign, no padding) and
`parseIntNat` models `parseInt(s, 10)` on such canonical strings: a
nonempty all-digit string parses to its value, anything else is treated as
non-numeric (`none`, i.e. `NaN`). -/

/-- The character for a decimal digit `d < 10` (code point `48 + d`). -/
def digitChar (d : Nat) : Char :=
  Char.ofNat (48 + d)

/-- The decimal digit characters of `n`, most significant first. -/
def decChars (n : Nat) : List Char :=
  if _h : n < 10 then [digitChar n]
  else decChars (n / 10) ++ [digitChar (n % 10)]
decreasing_by exact Nat.div_lt_self (Nat.lt_of_lt_of_le (by norm_num) (Nat.le_of_not_lt _h)) (by norm_num)

/-- `String(n)` for a nonnegative integer `n`. -/
def jsStringOfNat (n : Nat) : String :=
  ⟨decChars n⟩

/-- `parseInt(s, 10)` restricted to the canonical decimal strings the engine
stores: `none` models `NaN` (non-numeric input). -/
def parseIntNat (s : String) : Option Nat :=
  if s.data ≠ [] ∧ s.data.all Char.isDigit then
    some (s.data.foldl (fun n ch => 10 * n + (ch.toNat - 48)) 0)
  else
    none

/-- `getSyncState` (src/lib/db.js, lines 126–129) returns the stored value
or `null`; `setSyncState` (lines 131–137) stores `String(value)`.  The
state table restricted to one key is just an optional string, so the
engine-side cursor read `parseInt(await getSyncState(pool, 'sync_cursor'), 10) || 0`
becomes: -/
def readCursor (stored : Option String) : Nat :=
  match stored with
  | none => 0
  | some s => (parseIntNat s).getD 0

/-! ### The sync engine (src/api/sync.js) -/

/-- `PAIRS_PER_RUN`: how many pairs to sync per run. -/
def PAIRS_PER_RUN : Nat := 24

/-- `INTERVALS`: the granularities stored per symbol. -/
def INTERVALS : List String :=
  ["1m", "5m", "15m", "30m", "1h", "2h", "4h", "1d", "3d"]

/-- `MS_PER_INTERVAL`: lookback window in milliseconds per interval.  The
engine only looks up members of `INTERVALS`, which are all in the table;
other keys (which would read as `undefined` in JavaScript) are unused. -/
def MS_PER_INTERVAL (interval : String) : Int :=
  match interval with
  | "1m" => 24 * 60 * 60 * 1000
  | "5m" => 7 * 24 * 60 * 60 * 1000
  | "15m" => 14 * 24 * 60 * 60 * 1000
  | "30m" => 30 * 24 * 60 * 60 * 1000
  | "1h" => 30 * 24 * 60 * 60 * 1000
  | "2h" => 90 * 24 * 60 * 60 * 1000
  | "4h" => 90 * 24 * 60 * 60 * 1000
  | "1d" => 365 * 24 * 60 * 60 * 1000
  | "3d" => 365 * 24 * 60 * 60 * 1000
  | _ => 0

/-- The request of one `getCandleSnapshot` call:
`{ coin, interval, startTime, endTime }`. -/
structure Request where
  coin : String
  interval : String
  startTime : Int
  endTime : Int
deriving DecidableEq, Repr

/-- Outcome of one `getCandleSnapshot` call: a returned array, or a thrown
error with its message (`RATE_LIMIT` on HTTP 429, otherwise
`Hyperliquid candles failed: <status>`; see `getCandleSnapshot`). -/
inductive FetchOutcome where
  | ok (raws : List RawCandle)
  | err (msg : String)
deriving DecidableEq, Repr

/-- Observable effects of one run, in order of occurrence. -/
inductive Event where
  | getPairs
  | metaCall
  | upsertPairsEv (symbols : List String)
  | getState (key : String)
  | setState (key : String) (value : String)
  | fetchCall (req : Request) (attempt : Nat)
  | sleepEv (ms : Nat)
  | upsertCandlesEv (rows : List Row)
deriving DecidableEq, Repr

/-- Is the event a `getCandleSnapshot` call? -/
def Event.isFetchCall : Event → Bool
  | .fetchCall _ _ => true
  | _ => false

/-- The run's environment: what the store currently holds and how the
upstream answers.  `fetch req a` is the outcome of the call with request
`req` on attempt `a` (0 = first try, 1 = the retry after a rate-limit
back-off); `strNum` is the `Number(_)` reading of strings; `endMs` is
`Date.now()` at the start of the fetch loop. -/
structure Env where
  storedPairs : List String
  metaResult : Except String (List String)
  syncCursorVal : Option String
  fetch : Request → Nat → FetchOutcome
  strNum : String → Option ℚ
  endMs : Int

/-- `symbols.slice(cursor, cursor + PAIRS_PER_RUN)` for a nonnegative
cursor. -/
def batchOf (symbols : List String) (cursor : Nat) : List String :=
  (symbols.drop cursor).take PAIRS_PER_RUN

/-- `cursor + batch.length >= symbols.length ? 0 : cursor + batch.length`
(src/api/sync.js, line 61). -/
def nextCursor (cursor batchLen total : Nat) : Nat :=
  if cursor + batchLen ≥ total then 0 else cursor + batchLen

/-- Normalization of one raw candle (src/api/sync.js, lines 72–85):
`const t = c.T ?? c.t; if (t == null) continue;` then push the row with
`Number(_) || 0` on each OHLCV field. -/
def normRow (strNum : String → Option ℚ) (symbol interval : String)
    (cdl : RawCandle) : Option Row :=
  let ts := if nullish cdl.T then cdl.t else cdl.T
  if nullish ts then none
  else some
    { symbol := symbol, interval := interval, ts_ms := ts,
      o := numOr0 strNum cdl.o, h := numOr0 strNum cdl.h,
      l := numOr0 strNum cdl.l, c := numOr0 strNum cdl.c,
      v := numOr0 strNum cdl.v }

/-- The request the engine builds for `(symbol, interval)`:
`startMs = endMs - MS_PER_INTERVAL[interval]` (both the first attempt and
the retry recompute the same value). -/
def mkReq (endMs : Int) (symbol interval : String) : Request :=
  ⟨symbol, interval, endMs - MS_PER_INTERVAL interval, endMs⟩

/-- One iteration of the fetch loop for `(symbol, interval)`
(src/api/sync.js, lines 69–108): try the fetch and normalize; on a thrown
`RATE_LIMIT`, sleep 15000 ms and retry the same request once — the retry is
*not* guarded, so an error it throws escapes the loop (`Except.error`);
any other thrown message is swallowed (`// else skip this symbol/interval`). -/
def processPair (env : Env) (symbol interval : String) :
    List Event × Except String (List Row) :=
  let req := mkReq env.endMs symbol interval
  match env.fetch req 0 with
  | .ok raws =>
      ([.fetchCall req 0], .ok (raws.filterMap (normRow env.strNum symbol interval)))
  | .err msg =>
      if msg = "RATE_LIMIT" then
        match env.fetch req 1 with
        | .ok raws =>
            ([.fetchCall req 0, .sleepEv 15000, .fetchCall req 1],
             .ok (raws.filterMap (normRow env.strNum symbol interval)))
        | .err msg2 =>
            ([.fetchCall req 0, .sleepEv 15000, .fetchCall req 1], .error msg2)
      else
        ([.fetchCall req 0], .ok [])

/-- The fetch loop over the `(symbol, interval)` pairs, accumulating all
normalized rows (`allRows`); an escaping error aborts the loop. -/
def fetchLoop (env : Env) : List (String × String) → List Event × Except String (List Row)
  | [] => ([], .ok [])
  | (s, i) :: rest =>
      match processPair env s i with
      | (ev, .error msg) => (ev, .error msg)
      | (ev, .ok rows) =>
          let (ev2, res) := fetchLoop env rest
          (ev ++ ev2, res.map (fun more => rows ++ more))

/-- The pair sequence of the nested loops
`for (const symbol of batch) for (const interval of INTERVALS)`. -/
def loopPairs (batch : List String) : List (String × String) :=
  batch.flatMap (fun s => INTERVALS.map (fun i => (s, i)))

/-- The JSON result object of one run
(`{ ok, pairsSynced, candlesInserted, error, pairsFetched?, nextCursor? }`). -/
structure RunResult where
  ok : Bool
  pairsSynced : Nat
  candlesInserted : Nat
  nextCursorOut : Option Nat
  pairsFetched : Option Nat
  error : Option String
deriving DecidableEq, Repr

/-- Universe resolution (src/api/sync.js, lines 52–57): read the registry;
if empty, bootstrap from `getMeta` and upsert the pairs (recording
`out.pairsFetched`).  A thrown meta error propagates. -/
def resolveUniverse (env : Env) :
    Except String (List String × Option Nat × List Event) :=
  if env.storedPairs.isEmpty then
    match env.metaResult with
    | .error msg => .error msg
    | .ok symbols =>
        .ok (symbols, some symbols.length, [.metaCall, .upsertPairsEv symbols])
  else
    .ok (env.storedPairs, none, [])

/-- One invocation of the sync handler (src/api/sync.js, lines 48–125),
returning the result object and the trace of store/upstream effects.
Store operations themselves are assumed to succeed; the errors that can
abort a run in this model are a failed bootstrap `getMeta` and an error
escaping the fetch loop (the unguarded rate-limit retry), both caught by
the top-level `catch` which sets `ok:false` and the message. -/
def syncRun (env : Env) : RunResult × List Event :=
  match resolveUniverse env with
  | .error msg =>
      ({ ok := false, pairsSynced := 0, candlesInserted := 0,
         nextCursorOut := none, pairsFetched := none, error := some msg },
       [.getPairs, .metaCall])
  | .ok (symbols, pairsFetched, bootEv) =>
      let cursor := readCursor env.syncCursorVal
      let batch := batchOf symbols cursor
      let nc := nextCursor cursor batch.length symbols.length
      let preEv := Event.getPairs :: bootEv ++
        [.getState "sync_cursor", .setState "sync_cursor" (jsStringOfNat nc)]
      match fetchLoop env (loopPairs batch) with
      | (loopEv, .error msg) =>
          ({ ok := false, pairsSynced := 0, candlesInserted := 0,
             nextCursorOut := none, pairsFetched := pairsFetched,
             error := some msg },
           preEv ++ loopEv)
      | (loopEv, .ok allRows) =>
          let upsEv : List Event :=
            if allRows.isEmpty then [] else [.upsertCandlesEv allRows]
          ({ ok := true, pairsSynced := batch.length,
             candlesInserted := allRows.length, nextCursorOut := some nc,
             pairsFetched := pairsFetched, error := none },
           preEv ++ loopEv ++ upsEv)

/-! ### Decimal round-trip lemmas -/

lemma digitChar_isDigit (d : Nat) (hd : d < 10) : (digitChar d).isDigit = true := by
  interval_cases d <;> decide

lemma digitChar_toNat (d : Nat) (hd : d < 10) : (digitChar d).toNat = 48 + d := by
  interval_cases d <;> decide

lemma decChars_ne_nil (n : Nat) : decChars n ≠ [] := by
  rw [decChars]
  split
  · simp
  · simp

lemma decChars_all_digits (n : Nat) : ∀ ch ∈ decChars n, ch.isDigit = true := by
  induction n using Nat.strong_induction_on with
  | _ n ih =>
    rw [decChars]
    split
    · next h =>
      intro ch hch
      rw [List.mem_singleton] at hch
      subst hch
      exact digitChar_isDigit n h
    · next h =>
      intro ch hch
      rw [List.mem_append, List.mem_singleton] at hch
      rcases hch with h1 | h2
      · exact ih (n / 10) (Nat.div_lt_self (by omega) (by norm_num)) ch h1
      · subst h2
        exact digitChar_isDigit _ (Nat.mod_lt _ (by norm_num))

lemma decChars_foldl (n : Nat) : ∀ a : Nat,
    (decChars n).foldl (fun m ch => 10 * m + (ch.toNat - 48)) a
      = a * 10 ^ (decChars n).length + n := by
  induction n using Nat.strong_induction_on with
  | _ n ih =>
    intro a
    rw [decChars]
    split
    · next h =>
      simp [digitChar_toNat n h]
      omega
    · next h =>
      rw [List.foldl_append, ih (n / 10) (Nat.div_lt_self (by omega) (by norm_num)) a]
      simp only [List.foldl_cons, List.foldl_nil, List.length_append,
        List.length_singleton, digitChar_toNat (n % 10) (Nat.mod_lt _ (by norm_num))]
      have hdm : 10 * (n / 10) + n % 10 = n := Nat.div_add_mod n 10
      calc 10 * (a * 10 ^ (decChars (n / 10)).length + n / 10) + (48 + n % 10 - 48)
          = a * 10 ^ (decChars (n / 10)).length * 10 + (10 * (n / 10) + n % 10) := by
            omega
        _ = a * 10 ^ ((decChars (n / 10)).length + 1) + n := by
            rw [hdm, pow_succ]; ring

lemma parseIntNat_jsStringOfNat (n : Nat) : parseIntNat (jsStringOfNat n) = some n := by
  unfold parseIntNat jsStringOfNat
  rw [if_pos]
  · rw [decChars_foldl n 0]
    simp
  · refine ⟨decChars_ne_nil n, ?_⟩
    rw [List.all_eq_true]
    intro ch hch
    exact decChars_all_digits n ch hch

/-! ### Claims -/

/-- C7: the sync cursor is a pure pass-through to the persisted state table:
writing a natural number `n` stores its decimal string and reading parses it
back to `n`; reading defaults to 0 when the stored value is absent or
non-numeric; and when the stored value parses, reading returns exactly the
stored integer. -/
theorem cursor_passthrough (n : Nat) :
    readCursor (some (jsStringOfNat n)) = n ∧
    readCursor none = 0 ∧
    (∀ s, parseIntNat s = none → readCursor (some s) = 0) ∧
    (∀ s k, parseIntNat s = some k → readCursor (some s) = k) := by
  refine ⟨?_, rfl, ?_, ?_⟩
  · simp [readCursor, parseIntNat_jsStringOfNat]
  · intro s hs
    simp [readCursor, hs]
  · intro s k hs
    simp [readCursor, hs]

/-- C7 witness: write 37 then read returns 37; reading a non-numeric stored
value returns 0. -/
theorem cursor_passthrough_witness :
    readCursor (some (jsStringOfNat 37)) = 37 ∧ readCursor (some "xy") = 0 :=
  ⟨(cursor_passthrough 37).1, (cursor_passthrough 0).2.2.1 "xy" (by decide)⟩

/-- C1: for a nonnegative cursor `C` and a nonempty symbol list, one run's
batch is `symbols.slice(C, C + PAIRS_PER_RUN)`, whose length is
`min PAIRS_PER_RUN (N - C)`; the next cursor is `C + batch.length` when that
is `< N` and `0` when the batch end reaches `N`; hence the persisted cursor
always lies in `[0, N)`. -/
theorem slice_and_cursor_advance (symbols : List String) (C : Nat)
    (hN : 0 < symbols.length) :
    (batchOf symbols C).length = min PAIRS_PER_RUN (symbols.length - C) ∧
    (C + (batchOf symbols C).length < symbols.length →
      nextCursor C (batchOf symbols C).length symbols.length
        = C + (batchOf symbols C).length) ∧
    (symbols.length ≤ C + (batchOf symbols C).length →
      nextCursor C (batchOf symbols C).length symbols.length = 0) ∧
    nextCursor C (batchOf symbols C).length symbols.length < symbols.length ∧
    (∀ env : Env, env.storedPairs = symbols →
      env.syncCursorVal = some (jsStringOfNat C) →
      Event.setState "sync_cursor"
          (jsStringOfNat (nextCursor C (batchOf symbols C).length
            symbols.length))
        ∈ (syncRun env).2) := by
  refine ⟨?_, ?_, ?_, ?_, ?_⟩
  · simp [batchOf]
  · intro hlt
    have hno : ¬ (C + (batchOf symbols C).length ≥ symbols.length) := by omega
    simp only [nextCursor, if_neg hno]
  · intro hge
    have hyes : C + (batchOf symbols C).length ≥ symbols.length := hge
    simp only [nextCursor, if_pos hyes]
  · unfold nextCursor
    split
    · exact hN
    · omega
  · intro env hsp hcv
    have hne : env.storedPairs ≠ [] := by
      rw [hsp]
      exact List.length_pos.mp hN
    have hres : resolveUniverse env = .ok (env.storedPairs, none, []) := by
      unfold resolveUniverse
      rw [if_neg (by simp [hne])]
    have hrc : readCursor env.syncCursorVal = C := by
      rw [hcv]
      simp [readCursor, parseIntNat_jsStringOfNat]
    unfold syncRun
    rw [hres, hrc, hsp]
    rcases hfl : fetchLoop env (loopPairs (batchOf symbols C)) with ⟨loopEv, res⟩
    simp only [hfl]
    cases res with
    | error m => simp
    | ok rows => simp

/-- C1 witness: with a 30-symbol universe and cursor 10 the batch has
`min 24 20 = 20` symbols and the next cursor wraps to 0, which is `< 30`. -/
theorem slice_and_cursor_advance_witness :
    (batchOf (List.replicate 30 "S") 10).length
      = min PAIRS_PER_RUN ((List.replicate 30 "S").length - 10) ∧
    nextCursor 10 (batchOf (List.replicate 30 "S") 10).length
      (List.replicate 30 "S").length < (List.replicate 30 "S").length :=
  ⟨(slice_and_cursor_advance (List.replicate 30 "S") 10 (by decide)).1,
   (slice_and_cursor_advance (List.replicate 30 "S") 10 (by decide)).2.2.2.1⟩

/-- C10: when the stored cursor reads as `C ≥ N` (N > 0), the run selects an
empty batch, persists next cursor 0, performs no candle fetches, and returns
`ok:true` with `pairsSynced = 0`. -/
theorem stale_cursor_self_heals (env : Env) (hN : 0 < env.storedPairs.length)
    (hC : env.storedPairs.length ≤ readCursor env.syncCursorVal) :
    (syncRun env).1.ok = true ∧
    (syncRun env).1.pairsSynced = 0 ∧
    (syncRun env).1.candlesInserted = 0 ∧
    (syncRun env).1.nextCursorOut = some 0 ∧
    (∀ e ∈ (syncRun env).2, e.isFetchCall = false) ∧
    Event.setState "sync_cursor" (jsStringOfNat 0) ∈ (syncRun env).2 := by
  have hne : env.storedPairs ≠ [] := List.length_pos.mp hN
  have hres : resolveUniverse env = .ok (env.storedPairs, none, []) := by
    unfold resolveUniverse
    rw [if_neg]
    simp [hne]
  have hbatch : batchOf env.storedPairs (readCursor env.syncCursorVal) = [] := by
    unfold batchOf
    rw [List.drop_eq_nil_of_le hC]
    rfl
  have hnc : nextCursor (readCursor env.syncCursorVal) 0 env.storedPairs.length = 0 := by
    unfold nextCursor
    rw [if_pos (by omega)]
  have hrun : syncRun env =
      ({ ok := true, pairsSynced := 0, candlesInserted := 0,
         nextCursorOut := some 0, pairsFetched := none, error := none },
       [Event.getPairs, .getState "sync_cursor",
        .setState "sync_cursor" (jsStringOfNat 0)]) := by
    unfold syncRun
    rw [hres]
    simp [hbatch, hnc, loopPairs, fetchLoop]
  rw [hrun]
  refine ⟨rfl, rfl, rfl, rfl, ?_, ?_⟩
  · intro e he
    simp only [List.mem_cons, List.not_mem_nil, or_false] at he
    rcases he with rfl | rfl | rfl <;> rfl
  · simp

/-- A one-symbol environment whose stored cursor (5) is beyond the registry
size (1): the universe shrank since the cursor was written. -/
def envStale : Env :=
  { storedPairs := ["AAA"], metaResult := .ok [], syncCursorVal := some "5",
    fetch := fun _ _ => .ok [], strNum := fun _ => none, endMs := 0 }

/-- C10 witness: with registry `["AAA"]` and stored cursor `"5"`, the run
returns `ok:true`, syncs 0 pairs and persists cursor 0. -/
theorem stale_cursor_self_heals_witness :
    (syncRun envStale).1.ok = true ∧ (syncRun envStale).1.pairsSynced = 0 ∧
    (syncRun envStale).1.nextCursorOut = some 0 :=
  ⟨(stale_cursor_self_heals envStale (by decide) (by decide)).1,
   (stale_cursor_self_heals envStale (by decide) (by decide)).2.1,
   (stale_cursor_self_heals envStale (by decide) (by decide)).2.2.2.1⟩

/-- C4 counterexample: on HTTP 429 `getMeta` does *not* signal the distinct
rate-limited condition (the `RATE_LIMIT` error message that callers test
for); it throws the generic upstream failure, unlike `getCandleSnapshot`. -/
theorem meta_429_not_rate_limited :
    getMeta 429 (MetaBody.arr []) = Except.error "Hyperliquid meta failed: 429" ∧
    getMeta 429 (MetaBody.arr []) ≠ Except.error "RATE_LIMIT" ∧
    getCandleSnapshot 429 CandleBody.nonArr = Except.error "RATE_LIMIT" := by
  refine ⟨rfl, ?_, rfl⟩
  intro h
  rw [show getMeta 429 (MetaBody.arr [])
      = Except.error "Hyperliquid meta failed: 429" from rfl] at h
  exact absurd (Except.error.inj h) (by decide)

/-- C4 amended: `getCandleSnapshot` signals the distinct `RATE_LIMIT`
condition on HTTP 429 and the generic upstream error on every other
non-success status; `getMeta` signals the generic upstream error on *every*
non-success status, including 429. -/
theorem client_status_semantics (status : Nat) (mb : MetaBody) (cb : CandleBody)
    (hfail : respOk status = false) :
    getMeta status mb = .error ("Hyperliquid meta failed: " ++ Nat.repr status) ∧
    (status = 429 →
      getCandleSnapshot status cb = .error "RATE_LIMIT") ∧
    (status ≠ 429 →
      getCandleSnapshot status cb
        = .error ("Hyperliquid candles failed: " ++ Nat.repr status)) := by
  refine ⟨?_, ?_, ?_⟩
  · simp [getMeta, hfail]
  · intro h429
    subst h429
    simp [getCandleSnapshot, hfail]
  · intro h429
    simp [getCandleSnapshot, hfail, h429]

/-- C4 witness: concrete statuses 429 and 503. -/
theorem client_status_semantics_witness :
    getCandleSnapshot 429 (CandleBody.arr []) = .error "RATE_LIMIT" ∧
    getMeta 503 MetaBody.other = .error ("Hyperliquid meta failed: " ++ Nat.repr 503) :=
  ⟨(client_status_semantics 429 MetaBody.other (CandleBody.arr []) (by decide)).2.1 rfl,
   (client_status_semantics 503 MetaBody.other (CandleBody.arr []) (by decide)).1⟩

/-- C5: normalization keeps a raw point iff at least one of the timestamp
fields `T`, `t` is present and non-null (preferring `T`); a kept row carries
the `Number(_) || 0` coercion of each OHLCV field, where `NaN`-producing
(non-numeric) input and `null` both end up as 0; and a point missing both
timestamps contributes nothing to the accumulated rows. -/
theorem normalization_semantics (strNum : String → Option ℚ)
    (sym itv : String) (cdl : RawCandle) :
    ((normRow strNum sym itv cdl).isSome
      ↔ (nullish cdl.T = false ∨ nullish cdl.t = false)) ∧
    (∀ r, normRow strNum sym itv cdl = some r →
      r.ts_ms = (if nullish cdl.T then cdl.t else cdl.T) ∧
      r.o = numOr0 strNum cdl.o ∧ r.h = numOr0 strNum cdl.h ∧
      r.l = numOr0 strNum cdl.l ∧ r.c = numOr0 strNum cdl.c ∧
      r.v = numOr0 strNum cdl.v) ∧
    (∀ v, jsToNumber strNum v = none → numOr0 strNum v = 0) ∧
    numOr0 strNum JVal.null = 0 ∧
    (nullish cdl.T = true → nullish cdl.t = true →
      normRow strNum sym itv cdl = none ∧
      ∀ raws : List RawCandle,
        (cdl :: raws).filterMap (normRow strNum sym itv)
          = raws.filterMap (normRow strNum sym itv)) := by
  refine ⟨?_, ?_, ?_, rfl, ?_⟩
  · unfold normRow
    by_cases hT : nullish cdl.T <;> by_cases ht : nullish cdl.t <;>
      simp [hT, ht]
  · intro r hr
    by_cases hT : nullish cdl.T
    · by_cases ht : nullish cdl.t
      · simp [normRow, hT, ht] at hr
      · simp [normRow, hT, ht] at hr
        subst hr
        simp [hT]
    · simp [normRow, hT] at hr
      subst hr
      simp [hT]
  · intro v hv
    simp [numOr0, hv]
  · intro hT ht
    have hnone : normRow strNum sym itv cdl = none := by
      unfold normRow
      simp [hT, ht]
    exact ⟨hnone, fun raws => by simp [List.filterMap_cons, hnone]⟩

/-- C5 witness: a non-numeric string field coerces to 0, and a candle with
both timestamp fields absent is dropped. -/
theorem normalization_semantics_witness :
    numOr0 (fun _ => none) (JVal.str "bad") = 0 ∧
    normRow (fun _ => none) "BTC" "1h" {} = none :=
  ⟨(normalization_semantics (fun _ => none) "BTC" "1h" {}).2.2.1
      (JVal.str "bad") rfl,
   ((normalization_semantics (fun _ => none) "BTC" "1h" {}).2.2.2.2 rfl rfl).1⟩

/-- C9: on a successful response, `getMeta` returns the truthy mapped
entries of the universe list (a bare array or the `universe` field of a
wrapper object), in discovery order (the result is an order-preserving
sublist of the mapped entries); an entry that is neither a string nor an
object with a truthy `name` maps to a falsy value and is dropped. -/
theorem meta_extraction (status : Nat) (body : MetaBody)
    (hs : respOk status = true) :
    getMeta status body = .ok (((universeOf body).map entryName).filter truthy) ∧
    (((universeOf body).map entryName).filter truthy).Sublist
      ((universeOf body).map entryName) ∧
    (∀ e ∈ universeOf body,
      (∀ s, e ≠ .str s) →
      (∀ name, e = .obj name → truthy name = false) →
      truthy (entryName e) = false) := by
  refine ⟨by simp [getMeta, hs], List.filter_sublist _, ?_⟩
  intro e _ hstr hobj
  match e with
  | .str s => exact absurd rfl (hstr s)
  | .obj name => exact hobj name rfl
  | .prim v => rfl

/-- C9 witness: a mixed universe — kept: `"BTC"` and the object named
`"ETH"`; dropped: a nameless object, a `null` entry and an object with an
empty-string name. -/
theorem meta_extraction_witness :
    getMeta 200 (MetaBody.objWithUniverse
        [.str "BTC", .obj (.str "ETH"), .obj .undefined, .prim .null,
         .obj (.str "")])
      = .ok [.str "BTC", .str "ETH"] := by
  have h := (meta_extraction 200 (MetaBody.objWithUniverse
      [.str "BTC", .obj (.str "ETH"), .obj .undefined, .prim .null,
       .obj (.str "")]) (by decide)).1
  rw [h]
  rfl

/-! ### Store lemmas for the upsert claim -/

lemma key_ite (r a : Row) : (if a.key = r.key then r else a).key = a.key := by
  split
  · next h => exact h.symm
  · rfl

lemma upsertRow_filter (r : Row) : ∀ store : List Row, KeyUnique store →
    (upsertRow store r).filter (fun s => s.key = r.key) = [r] := by
  intro store
  induction store with
  | nil =>
    intro _
    simp [upsertRow]
  | cons a tl ih =>
    intro h
    rw [KeyUnique, List.pairwise_cons] at h
    obtain ⟨ha, htl⟩ := h
    by_cases hak : a.key = r.key
    · have hany : ((a :: tl).any fun s => s.key = r.key) = true := by
        simp [hak]
      have hnil : List.filter (fun s => decide (s.key = r.key))
          (List.map (fun s => if s.key = r.key then r else s) tl) = [] := by
        rw [List.filter_eq_nil_iff]
        intro x hx
        rw [List.mem_map] at hx
        obtain ⟨s, hs, rfl⟩ := hx
        have hsk : s.key ≠ r.key := by
          rw [← hak]
          exact (ha s hs).symm
        rw [if_neg hsk]
        simp [hsk]
      unfold upsertRow
      rw [if_pos hany, List.map_cons, if_pos hak, List.filter_cons]
      simp [hnil]
    · by_cases htla : (tl.any fun s => s.key = r.key) = true
      · have hany : ((a :: tl).any fun s => s.key = r.key) = true := by
          simp only [List.any_cons, htla, Bool.or_true]
        unfold upsertRow
        rw [if_pos hany, List.map_cons, if_neg hak, List.filter_cons,
          if_neg (by simp [hak])]
        have htl' := ih htl
        unfold upsertRow at htl'
        rw [if_pos htla] at htl'
        exact htl'
      · have hany : ¬ ((a :: tl).any fun s => s.key = r.key) = true := by
          simp only [List.any_cons, Bool.or_eq_true, not_or]
          exact ⟨by simp [hak], htla⟩
        have hnil : List.filter (fun s => decide (s.key = r.key)) tl = [] := by
          rw [List.filter_eq_nil_iff]
          intro x hx hxk
          apply htla
          rw [List.any_eq_true]
          exact ⟨x, hx, by simpa using hxk⟩
        unfold upsertRow
        rw [if_neg hany, List.cons_append, List.filter_cons,
          if_neg (by simp [hak]), List.filter_append, hnil]
        simp

lemma upsertRow_keyUnique (r : Row) : ∀ store : List Row, KeyUnique store →
    KeyUnique (upsertRow store r) := by
  intro store h
  unfold upsertRow
  split
  · next hany =>
    refine List.Pairwise.map _ ?_ h
    intro a b hab
    rw [key_ite, key_ite]
    exact hab
  · next hany =>
    rw [KeyUnique, List.pairwise_append]
    refine ⟨h, by simp [KeyUnique], ?_⟩
    intro a hastore b hb
    rw [List.mem_singleton] at hb
    subst hb
    intro hk
    apply hany
    rw [List.any_eq_true]
    exact ⟨a, hastore, by simp [hk]⟩

lemma upsertRow_length_existing (store : List Row) (r : Row)
    (hany : (store.any fun s => s.key = r.key) = true) :
    (upsertRow store r).length = store.length := by
  unfold upsertRow
  rw [if_pos hany, List.length_map]

lemma mem_upsertRow_self (store : List Row) (r : Row) : r ∈ upsertRow store r := by
  unfold upsertRow
  split
  · next hany =>
    rw [List.any_eq_true] at hany
    obtain ⟨s, hs, hsk⟩ := hany
    rw [List.mem_map]
    exact ⟨s, hs, by rw [if_pos (by simpa using hsk)]⟩
  · simp

/-- C6: starting from any well-keyed table, upserting `r1` then `r2` with
the same `(symbol, interval, ts_ms)` key leaves exactly one row for that key
holding `r2`'s values (last-write-wins); key-uniqueness is preserved and the
second upsert adds no row. -/
theorem upsert_last_write_wins (store : List Row) (hu : KeyUnique store)
    (r1 r2 : Row) (hk : r1.key = r2.key) :
    (upsertCandles (upsertCandles store [r1]) [r2]).filter
        (fun s => s.key = r2.key) = [r2] ∧
    KeyUnique (upsertCandles (upsertCandles store [r1]) [r2]) ∧
    (upsertCandles (upsertCandles store [r1]) [r2]).length
      = (upsertCandles store [r1]).length := by
  have h1 : upsertCandles store [r1] = upsertRow store r1 := rfl
  have h2 : upsertCandles (upsertRow store r1) [r2]
      = upsertRow (upsertRow store r1) r2 := rfl
  have hu1 : KeyUnique (upsertRow store r1) := upsertRow_keyUnique r1 store hu
  refine ⟨?_, ?_, ?_⟩
  · rw [h1, h2]
    exact upsertRow_filter r2 _ hu1
  · rw [h1, h2]
    exact upsertRow_keyUnique r2 _ hu1
  · rw [h1, h2]
    have hany : ((upsertRow store r1).any fun s => s.key = r2.key) = true := by
      rw [List.any_eq_true]
      exact ⟨r1, mem_upsertRow_self store r1, by simp [hk]⟩
    exact upsertRow_length_existing _ _ hany

/-- C6 witness: two writes of the key `("BTC", "1h", 1000)` with different
close prices leave one row carrying the second write's values. -/
theorem upsert_last_write_wins_witness :
    (upsertCandles (upsertCandles []
        [⟨"BTC", "1h", .num 1000, 1, 2, 3, 4, 5⟩])
        [⟨"BTC", "1h", .num 1000, 6, 7, 8, 9, 10⟩]).filter
      (fun s => s.key = Row.key ⟨"BTC", "1h", .num 1000, 6, 7, 8, 9, 10⟩)
    = [⟨"BTC", "1h", .num 1000, 6, 7, 8, 9, 10⟩] :=
  (upsert_last_write_wins [] (by simp [KeyUnique])
    ⟨"BTC", "1h", .num 1000, 1, 2, 3, 4, 5⟩
    ⟨"BTC", "1h", .num 1000, 6, 7, 8, 9, 10⟩ rfl).1

/-! ### Fetch-loop and run-level lemmas -/

lemma syncRun_ok_of_loop_ok (env : Env) (hne : env.storedPairs ≠ [])
    (rows : List Row)
    (hl : (fetchLoop env (loopPairs (batchOf env.storedPairs
        (readCursor env.syncCursorVal)))).2 = .ok rows) :
    (syncRun env).1.ok = true ∧
    (syncRun env).1.candlesInserted = rows.length ∧
    (rows ≠ [] → Event.upsertCandlesEv rows ∈ (syncRun env).2) := by
  have hres : resolveUniverse env = .ok (env.storedPairs, none, []) := by
    unfold resolveUniverse
    rw [if_neg (by simp [hne])]
  rcases hfl : fetchLoop env (loopPairs (batchOf env.storedPairs
      (readCursor env.syncCursorVal))) with ⟨loopEv, res⟩
  rw [hfl] at hl
  simp only at hl
  subst hl
  unfold syncRun
  rw [hres]
  simp only [hfl]
  refine ⟨by trivial, by trivial, ?_⟩
  intro hrne
  have hie : rows.isEmpty = false := by
    cases rows with
    | nil => exact absurd rfl hrne
    | cons a l => rfl
  simp [hie]

/-- An environment in which the very first pair `("AAA", "1m")` is
rate-limited on the first attempt and the retry then fails with an upstream
error; every other fetch succeeds with an empty array. -/
def envRetryFails : Env :=
  { storedPairs := ["AAA", "BBB"], metaResult := .ok [],
    syncCursorVal := some "0",
    fetch := fun req a =>
      if req.coin = "AAA" ∧ req.interval = "1m" then
        (if a = 0 then .err "RATE_LIMIT"
         else .err "Hyperliquid candles failed: 500")
      else .ok [],
    strNum := fun _ => none, endMs := 0 }

/-- C2 counterexample: when the single retry after a rate-limit back-off
fails, the error is *not* scoped to the pair — it escapes the fetch loop and
the whole run returns `ok:false` with no pair synced, contradicting the
claim that such a failure abandons only that pair and the run still returns
`ok:true`. -/
theorem retry_failure_aborts_run :
    (syncRun envRetryFails).1.ok = false ∧
    (syncRun envRetryFails).1.error = some "Hyperliquid candles failed: 500" ∧
    (syncRun envRetryFails).1.pairsSynced = 0 ∧
    (syncRun envRetryFails).1.candlesInserted = 0 :=
  ⟨rfl, rfl, rfl, rfl⟩

/-- C2 amended: an `UpstreamError` thrown by the *first* fetch attempt of a
pair abandons only that pair — the loop records the one call, contributes no
rows and no error, and continues with the remaining pairs unchanged — and
when the whole fetch loop completes without an escaping error the run
returns `ok:true` and persists the accumulated rows of the other pairs.
(A failure of the retry after a rate-limit back-off, by contrast, aborts the
run; see the counterexample.) -/
theorem upstream_error_skips_pair (env : Env) (s i msg : String)
    (rest : List (String × String))
    (h1 : env.fetch (mkReq env.endMs s i) 0 = .err msg)
    (h2 : msg ≠ "RATE_LIMIT") (hne : env.storedPairs ≠ []) :
    processPair env s i = ([.fetchCall (mkReq env.endMs s i) 0], .ok []) ∧
    (fetchLoop env ((s, i) :: rest)).1
      = Event.fetchCall (mkReq env.endMs s i) 0 :: (fetchLoop env rest).1 ∧
    (fetchLoop env ((s, i) :: rest)).2 = (fetchLoop env rest).2 ∧
    (∀ rows, (fetchLoop env (loopPairs (batchOf env.storedPairs
        (readCursor env.syncCursorVal)))).2 = .ok rows →
      (syncRun env).1.ok = true ∧
      (syncRun env).1.candlesInserted = rows.length ∧
      (rows ≠ [] → Event.upsertCandlesEv rows ∈ (syncRun env).2)) := by
  have hpp : processPair env s i
      = ([.fetchCall (mkReq env.endMs s i) 0], .ok []) := by
    simp [processPair, h1, h2]
  refine ⟨hpp, ?_, ?_, fun rows hrows => syncRun_ok_of_loop_ok env hne rows hrows⟩
  · rcases hr : fetchLoop env rest with ⟨ev2, res⟩
    simp [fetchLoop, hpp, hr]
  · rcases hr : fetchLoop env rest with ⟨ev2, res⟩
    cases res with
    | error m => simp [fetchLoop, hpp, hr, Except.map]
    | ok more => simp [fetchLoop, hpp, hr, Except.map]

/-- An environment in which every `"1m"` fetch fails with an upstream error
on the first attempt and every other fetch succeeds with an empty array. -/
def envSkip : Env :=
  { storedPairs := ["AAA"], metaResult := .ok [],
    syncCursorVal := none,
    fetch := fun req _ =>
      if req.interval = "1m" then .err "Hyperliquid candles failed: 500"
      else .ok [],
    strNum := fun _ => none, endMs := 0 }

/-- C2 witness: in `envSkip` the bad pair is skipped with no contribution
and the run still returns `ok:true`. -/
theorem upstream_error_skips_pair_witness :
    processPair envSkip "AAA" "1m"
      = ([.fetchCall (mkReq envSkip.endMs "AAA" "1m") 0], .ok []) ∧
    (syncRun envSkip).1.ok = true :=
  ⟨(upstream_error_skips_pair envSkip "AAA" "1m"
      "Hyperliquid candles failed: 500" [] rfl (by decide) (by decide)).1,
   ((upstream_error_skips_pair envSkip "AAA" "1m"
      "Hyperliquid candles failed: 500" [] rfl (by decide) (by decide)).2.2.2
      [] rfl).1⟩

/-- C3: when the first fetch of a pair throws `RATE_LIMIT`, the engine
sleeps the fixed 15000 ms back-off and retries exactly once with the
literally identical request (same coin, interval, startTime, endTime, as
recorded by the two `fetchCall` events); on a successful retry the retry's
normalized points are the pair's contribution, the loop continues, and a
run whose loop completes returns `ok:true` with the rows persisted. -/
theorem rate_limit_retry (env : Env) (s i : String) (raws : List RawCandle)
    (rest : List (String × String))
    (h1 : env.fetch (mkReq env.endMs s i) 0 = .err "RATE_LIMIT")
    (h2 : env.fetch (mkReq env.endMs s i) 1 = .ok raws)
    (hne : env.storedPairs ≠ []) :
    processPair env s i
      = ([.fetchCall (mkReq env.endMs s i) 0, .sleepEv 15000,
          .fetchCall (mkReq env.endMs s i) 1],
         .ok (raws.filterMap (normRow env.strNum s i))) ∧
    (fetchLoop env ((s, i) :: rest)).2
      = ((fetchLoop env rest).2).map
          (fun more => raws.filterMap (normRow env.strNum s i) ++ more) ∧
    (∀ rows, (fetchLoop env (loopPairs (batchOf env.storedPairs
        (readCursor env.syncCursorVal)))).2 = .ok rows →
      (syncRun env).1.ok = true ∧
      (syncRun env).1.candlesInserted = rows.length ∧
      (rows ≠ [] → Event.upsertCandlesEv rows ∈ (syncRun env).2)) := by
  have hpp : processPair env s i
      = ([.fetchCall (mkReq env.endMs s i) 0, .sleepEv 15000,
          .fetchCall (mkReq env.endMs s i) 1],
         .ok (raws.filterMap (normRow env.strNum s i))) := by
    simp [processPair, h1, h2]
  refine ⟨hpp, ?_, fun rows hrows => syncRun_ok_of_loop_ok env hne rows hrows⟩
  rcases hr : fetchLoop env rest with ⟨ev2, res⟩
  cases res with
  | error m => simp [fetchLoop, hpp, hr, Except.map]
  | ok more => simp [fetchLoop, hpp, hr, Except.map]

/-- An environment in which the pair `("AAA", "1m")` is rate-limited on the
first attempt and succeeds on the retry with one candle; every other fetch
succeeds with an empty array. -/
def envRetryOk : Env :=
  { storedPairs := ["AAA"], metaResult := .ok [],
    syncCursorVal := none,
    fetch := fun req a =>
      if req.interval = "1m" then
        (if a = 0 then .err "RATE_LIMIT"
         else .ok [{ T := .num 1700000000000, o := .str "1.5", h := .num 2,
                     l := .num 1, c := .num 2, v := .num 9 }])
      else .ok [],
    strNum := fun _ => none, endMs := 0 }

/-- C3 witness: in `envRetryOk` the pair's trace is fetch, 15 s sleep, the
same fetch again, and the retry's point is the contribution. -/
theorem rate_limit_retry_witness :
    processPair envRetryOk "AAA" "1m"
      = ([.fetchCall (mkReq envRetryOk.endMs "AAA" "1m") 0, .sleepEv 15000,
          .fetchCall (mkReq envRetryOk.endMs "AAA" "1m") 1],
         .ok ([{ T := .num 1700000000000, o := .str "1.5", h := .num 2,
                 l := .num 1, c := .num 2,
                 v := .num 9 }].filterMap
              (normRow envRetryOk.strNum "AAA" "1m"))) :=
  (rate_limit_retry envRetryOk "AAA" "1m"
    [{ T := .num 1700000000000, o := .str "1.5", h := .num 2,
       l := .num 1, c := .num 2, v := .num 9 }] [] rfl rfl (by decide)).1

/-- C8: in every run whose universe resolution succeeds, the computed next
cursor is written to the state table (`setState "sync_cursor"`) at a trace
position strictly before every `getCandleSnapshot` call of the fetch loop:
the trace splits as `pre ++ setState :: post` with no fetch call in `pre`. -/
theorem cursor_persisted_before_any_fetch (env : Env) (symbols : List String)
    (pf : Option Nat) (bootEv : List Event)
    (hres : resolveUniverse env = .ok (symbols, pf, bootEv)) :
    ∃ pre post, (syncRun env).2
        = pre ++ Event.setState "sync_cursor"
            (jsStringOfNat (nextCursor (readCursor env.syncCursorVal)
              (batchOf symbols (readCursor env.syncCursorVal)).length
              symbols.length)) :: post ∧
      ∀ e ∈ pre, e.isFetchCall = false := by
  have hboot : ∀ e ∈ bootEv, e.isFetchCall = false := by
    unfold resolveUniverse at hres
    split at hres
    · cases hmr : env.metaResult with
      | error m =>
        rw [hmr] at hres
        exact absurd hres (by simp)
      | ok syms =>
        rw [hmr] at hres
        simp only [Except.ok.injEq, Prod.mk.injEq] at hres
        obtain ⟨-, -, hb⟩ := hres
        subst hb
        intro e he
        simp only [List.mem_cons, List.not_mem_nil, or_false] at he
        rcases he with rfl | rfl
        · rfl
        · rfl
    · simp only [Except.ok.injEq, Prod.mk.injEq] at hres
      obtain ⟨-, -, hb⟩ := hres
      subst hb
      intro e he
      simp at he
  have hpre : ∀ e ∈ Event.getPairs :: bootEv ++ [Event.getState "sync_cursor"],
      e.isFetchCall = false := by
    intro e he
    rcases List.mem_cons.mp he with rfl | he2
    · rfl
    · rcases List.mem_append.mp he2 with hb | hg
      · exact hboot e hb
      · rcases List.mem_singleton.mp hg with rfl
        rfl
  unfold syncRun
  rw [hres]
  rcases hfl : fetchLoop env (loopPairs (batchOf symbols
      (readCursor env.syncCursorVal))) with ⟨loopEv, res⟩
  simp only [hfl]
  cases res with
  | error m =>
    refine ⟨Event.getPairs :: bootEv ++ [Event.getState "sync_cursor"],
      loopEv, ?_, hpre⟩
    simp
  | ok rows =>
    refine ⟨Event.getPairs :: bootEv ++ [Event.getState "sync_cursor"],
      loopEv ++ (if rows.isEmpty then [] else [Event.upsertCandlesEv rows]),
      ?_, hpre⟩
    simp

/-- A minimal environment with a nonempty registry, used to instantiate the
ordering theorem. -/
def envBasic : Env :=
  { storedPairs := ["AAA"], metaResult := .ok [],
    syncCursorVal := none, fetch := fun _ _ => .ok [],
    strNum := fun _ => none, endMs := 0 }

/-- C8 witness: the split exists for the concrete run of `envBasic`. -/
theorem cursor_persisted_before_any_fetch_witness :
    ∃ pre post, (syncRun envBasic).2
        = pre ++ Event.setState "sync_cursor"
            (jsStringOfNat (nextCursor (readCursor envBasic.syncCursorVal)
              (batchOf ["AAA"] (readCursor envBasic.syncCursorVal)).length
              (["AAA"] : List String).length)) :: post ∧
      ∀ e ∈ pre, e.isFetchCall = false :=
  cursor_persisted_before_any_fetch envBasic ["AAA"] none [] rfl

end HyperData
